import Mathlib

/-
Verification development for the dental-smile-care repository.

The repository is a TypeScript clinic administration app.  This file gives a
shallow embedding of the parts of the code that the verified claims are
about:

* the client-side photo upload module (`validatePhoto`, `uploadPatientPhoto`,
  `cancelPatientPhotoUpload`, the `activeUploads` duplicate-upload guard);
* the in-memory storage layer (`MemoryStorage` in `server/storage.ts`:
  `createPatient`, `updatePatient`, `searchPatients`, the list/sort
  operations, `getAuditLogs`);
* the hybrid storage facade (`HybridStorage` with
  `checkFirestoreAvailability`, `initializeFallback`, `executeWithFallback`);
* the `POST /api/patients` route handler (patient creation with photo
  re-pathing).

Modelling conventions:

* JavaScript strings are Lean `String`s; `strToLower` stands in for
  `toLowerCase()` (the repository only manipulates ASCII names and paths).
* JavaScript `Map` objects are modelled as insertion-ordered association
  lists, matching the iteration order guarantees of `Map`.
* `Date` values are abstracted to natural-number timestamps supplied by a
  model clock that advances at each creation, so later creations get
  strictly larger `createdAt` values.
* `Array.prototype.sort` with a consistent numeric comparator returns the
  unique stable sort for that comparator; it is modelled by
  `List.insertionSort`, which is exactly that stable sort.
* asynchronous calls whose outcome depends on the environment (the remote
  object store, the Firestore backend) take their outcome from an explicit
  oracle argument, and exceptions are `Except` values.
-/

/-! ### Generic string helpers (JS `includes` / `endsWith`) -/

/-- JS `hay.includes(needle)`: `needle` occurs as a contiguous substring. -/
def strIncludes (hay needle : String) : Bool :=
  (List.range (hay.data.length + 1)).any (fun i => needle.data.isPrefixOf (hay.data.drop i))

/-- JS `s.endsWith(suffix)`. -/
def strEndsWith (s suf : String) : Bool :=
  suf.data.isSuffixOf s.data

/-- JS `toLowerCase()` (ASCII lowercasing; written on `String.data` so that
it evaluates inside the kernel; `toLowerCase` over ASCII is
extensionally the same function). -/
def strToLower (s : String) : String :=
  String.mk (s.data.map Char.toLower)

theorem strIncludes_iff {hay needle : String} :
    strIncludes hay needle = true ↔ needle.data <:+: hay.data := by
  unfold strIncludes
  rw [List.any_eq_true]
  constructor
  · rintro ⟨i, -, hpre⟩
    rw [List.isPrefixOf_iff_prefix] at hpre
    exact hpre.isInfix.trans (List.drop_suffix i hay.data).isInfix
  · rintro ⟨s, t, hst⟩
    refine ⟨s.length, ?_, ?_⟩
    · have hlen : s.length ≤ hay.data.length := by
        rw [← hst]; simp
      simp only [List.mem_range]; omega
    · rw [List.isPrefixOf_iff_prefix, ← hst]
      rw [List.append_assoc, List.drop_left]
      exact ⟨t, rfl⟩

/-! ### Photo upload module: `validatePhoto`
    (client upload module, `src/unnamed/part_003`, lines 17-93) -/

/-- The error codes of `PhotoUploadError` in the upload module. -/
inductive PhotoErrCode where
  | INVALID_TYPE
  | FILE_TOO_LARGE
  | UPLOAD_FAILED
  | INVALID_FILE
  | ROLLBACK_FAILED
  | DUPLICATE_UPLOAD
deriving DecidableEq, Repr

/-- A browser `File` as far as the upload module inspects it: declared MIME
type (`file.type`), byte size, name, and the content bytes (used only for
the magic-number sniff). -/
structure UFile where
  name : String
  mime : String
  size : Nat
  bytes : List Nat
deriving DecidableEq, Repr

/-- `DEFAULT_OPTIONS.maxSizeBytes = 5 * 1024 * 1024`. -/
def maxSizeBytes : Nat := 5 * 1024 * 1024

/-- `DEFAULT_OPTIONS.allowedTypes`. -/
def allowedTypes : List String := ["image/jpeg", "image/jpg", "image/png"]

/-- The deny-list of dangerous file-extension suffixes in `validatePhoto`. -/
def dangerousExtensions : List String :=
  [".exe", ".bat", ".cmd", ".scr", ".com", ".pif", ".vbs", ".js"]

/-- JPEG magic-number check on the first bytes (`FF D8 FF`); out-of-range
indexing of the `Uint8Array` yields `undefined`, which compares unequal, so
`List.get?` is the faithful model. -/
def isJPEGsig (b : List Nat) : Bool :=
  b.get? 0 == some 0xFF && b.get? 1 == some 0xD8 && b.get? 2 == some 0xFF

/-- PNG magic-number check on the first bytes (`89 50 4E 47`). -/
def isPNGsig (b : List Nat) : Bool :=
  b.get? 0 == some 0x89 && b.get? 1 == some 0x50 && b.get? 2 == some 0x4E && b.get? 3 == some 0x47

/-- `validatePhoto(file)` with the default options, returning the error code
thrown, or `()` when the file passes.  `none` models a missing `file`
argument (the `if (!file)` guard).  The checks appear in source order:
declared-type allow-list, size ceiling, dangerous-extension deny-list,
magic-number sniff on `file.arrayBuffer().slice(0, 12)`. -/
def validatePhoto (file : Option UFile) : Except PhotoErrCode Unit :=
  match file with
  | none => .error .INVALID_FILE
  | some f =>
    if !(allowedTypes.contains f.mime) then .error .INVALID_TYPE
    else if decide (0 < maxSizeBytes) && decide (f.size > maxSizeBytes) then .error .FILE_TOO_LARGE
    else if dangerousExtensions.any (fun e => strEndsWith (strToLower f.name) e) then .error .INVALID_TYPE
    else if !(isJPEGsig (f.bytes.take 12) || isPNGsig (f.bytes.take 12)) then .error .INVALID_FILE
    else .ok ()

/-! ### MemoryStorage data model (`src/server/storage.ts`)

Only the fields the modelled operations read or write are carried;
fields the claims never touch (date of birth, address, medical history,
emergency contact, consent, communication preferences, ...) are copied
verbatim by every modelled operation and are therefore omitted. -/

/-- A `Patient` record as stored by `MemoryStorage`.  `email`,
`emailLower` and `profilePhotoUrl` are optional in the schema. -/
structure Patient where
  id : String
  firstName : String
  lastName : String
  fullName : String
  fullNameLower : String
  phone : String
  email : Option String
  emailLower : Option String
  profilePhotoUrl : Option String
  createdAt : Nat
deriving DecidableEq, Repr

/-- An `InsertPatient` payload (the caller-supplied part of a patient). -/
structure InsertPatient where
  firstName : String
  lastName : String
  phone : String
  email : Option String := none
  profilePhotoUrl : Option String := none
  dateOfBirthYear : Option Int := none
deriving DecidableEq, Repr

/-- A `Partial<Patient>` update object: `some v` means the key is present
with value `v`, `none` means the key is absent.  Only the keys that
`updatePatient` treats specially plus `profilePhotoUrl` (used by the
patient-creation route) are modelled. -/
structure PatientUpdates where
  firstName : Option String := none
  lastName : Option String := none
  email : Option String := none
  profilePhotoUrl : Option String := none
deriving DecidableEq, Repr

/-- JS truthiness of a possibly-absent string: absent keys and the empty
string are falsy. -/
def jsTruthy : Option String → Bool
  | none => false
  | some s => !(s == "")

/-- JS `a || b` for a possibly-absent string `a`: yields `b` when `a` is
absent or empty. -/
def jsOr (a : Option String) (b : String) : String :=
  match a with
  | some s => if s == "" then b else s
  | none => b

/-- `MemoryStorage.createPatient`: builds the stored record from an insert
payload, a generated id and the creation timestamp.  `fullName`,
`fullNameLower` and `emailLower` are denormalized here
(`server/storage.ts` lines 269-281). -/
def createPatientRec (ins : InsertPatient) (id : String) (ts : Nat) : Patient :=
  let fullName := ins.firstName ++ " " ++ ins.lastName
  { id := id
    firstName := ins.firstName
    lastName := ins.lastName
    fullName := fullName
    fullNameLower := strToLower fullName
    phone := ins.phone
    email := ins.email
    emailLower := ins.email.map strToLower
    profilePhotoUrl := ins.profilePhotoUrl
    createdAt := ts }

/-- `MemoryStorage.updatePatient` applied to a found record
(`server/storage.ts` lines 283-303).  `fullName` is recomputed only when
`updates.firstName || updates.lastName` is truthy, and each name inside the
recomputation falls back to the existing one via `||`; the object spread
`...updates` then overwrites every present key, including falsy ones. -/
def applyPatientUpdate (p : Patient) (u : PatientUpdates) : Patient :=
  let fullName :=
    if jsTruthy u.firstName || jsTruthy u.lastName then
      jsOr u.firstName p.firstName ++ " " ++ jsOr u.lastName p.lastName
    else p.fullName
  { p with
    firstName := u.firstName.getD p.firstName
    lastName := u.lastName.getD p.lastName
    email := match u.email with | some v => some v | none => p.email
    profilePhotoUrl := match u.profilePhotoUrl with | some v => some v | none => p.profilePhotoUrl
    fullName := fullName
    fullNameLower := strToLower fullName
    emailLower := if jsTruthy u.email then some (strToLower (u.email.getD "")) else p.emailLower }

/-- The patients `Map` of `MemoryStorage`, as an insertion-ordered list,
with the id counter and the model clock. -/
structure PatientStore where
  patients : List Patient
  counter : Nat
  now : Nat
deriving DecidableEq, Repr

/-- `generateId()`: `` `id-${this.counter++}` ``. -/
def generateId (counter : Nat) : String :=
  "id-" ++ toString counter

/-- Store-level `createPatient`: generates the id, stamps the creation
time, appends to the map (JS `Map.set` of a fresh key appends in iteration
order), and advances the clock. -/
def PatientStore.createPatient (s : PatientStore) (ins : InsertPatient) :
    Patient × PatientStore :=
  let p := createPatientRec ins (generateId s.counter) s.now
  (p, { patients := s.patients ++ [p], counter := s.counter + 1, now := s.now + 1 })

/-- Store-level `updatePatient`: `undefined` for a missing id, otherwise
replaces the stored record in place (JS `Map.set` of an existing key keeps
its position). -/
def PatientStore.updatePatient (s : PatientStore) (pid : String) (u : PatientUpdates) :
    Option Patient × PatientStore :=
  match s.patients.find? (fun p => p.id == pid) with
  | none => (none, s)
  | some p =>
    let p2 := applyPatientUpdate p u
    (some p2,
     { s with patients := s.patients.map (fun q => if q.id == pid then p2 else q) })

/-- The match test of `MemoryStorage.searchPatients`
(`server/storage.ts` lines 309-316): substring of the lowercased full name,
or substring of the phone, or (when `emailLower` is truthy) substring of
the lowercased email. -/
def patientMatches (q : String) (p : Patient) : Bool :=
  strIncludes p.fullNameLower (strToLower q)
  || strIncludes p.phone q
  || (match p.emailLower with
      | some e => !(e == "") && strIncludes e (strToLower q)
      | none => false)

/-- `MemoryStorage.searchPatients(query)`: a filter over the map's values
in insertion order. -/
def PatientStore.searchPatients (s : PatientStore) (q : String) : List Patient :=
  s.patients.filter (patientMatches q)

/-! ### Appointments and audit logs (`src/server/storage.ts` lines 318-447)

`Array.prototype.sort` with numeric comparators `(a, b) => k(b) - k(a)`
(descending by `k`) and `(a, b) => k(a) - k(b)` (ascending by `k`) is
modelled by `List.insertionSort` with the corresponding total preorder. -/

/-- An `Appointment` record, restricted to the fields the modelled queries
read (`scheduledAt` as a timestamp, the derived `scheduledDate` string,
`doctorId`, `createdAt`). -/
structure Appointment where
  id : String
  doctorId : String
  scheduledAt : Nat
  scheduledDate : String
  createdAt : Nat
deriving DecidableEq, Repr

/-- An `AuditLog` record; `changesError` abstracts whether the `changes`
payload carries the `error: 'Photo re-pathing failed'` marker written by the
patient-creation route's catch block. -/
structure AuditLog where
  id : String
  userId : String
  action : String
  entityType : String
  entityId : String
  changesError : Bool
  createdAt : Nat
deriving DecidableEq, Repr

/-- Descending-by-`createdAt` comparator order (`(a, b) => b.createdAt - a.createdAt`). -/
def auditCreatedDesc (a b : AuditLog) : Prop := b.createdAt ≤ a.createdAt

instance : DecidableRel auditCreatedDesc := fun _ _ => Nat.decLe _ _
instance : IsTotal AuditLog auditCreatedDesc := ⟨fun a b => Nat.le_total b.createdAt a.createdAt⟩
instance : IsTrans AuditLog auditCreatedDesc :=
  ⟨fun _ _ _ h1 h2 => Nat.le_trans h2 h1⟩

/-- Descending-by-`scheduledAt` order (`getAppointments`' comparator
`(a, b) => b.scheduledAt.getTime() - a.scheduledAt.getTime()`). -/
def schedDesc (a b : Appointment) : Prop := b.scheduledAt ≤ a.scheduledAt

instance : DecidableRel schedDesc := fun _ _ => Nat.decLe _ _
instance : IsTotal Appointment schedDesc := ⟨fun a b => Nat.le_total b.scheduledAt a.scheduledAt⟩
instance : IsTrans Appointment schedDesc := ⟨fun _ _ _ h1 h2 => Nat.le_trans h2 h1⟩

/-- Ascending-by-`scheduledAt` order (the comparator of
`getAppointmentsByDate` / `getAppointmentsByDoctor`). -/
def schedAsc (a b : Appointment) : Prop := a.scheduledAt ≤ b.scheduledAt

instance : DecidableRel schedAsc := fun _ _ => Nat.decLe _ _
instance : IsTotal Appointment schedAsc := ⟨fun a b => Nat.le_total a.scheduledAt b.scheduledAt⟩
instance : IsTrans Appointment schedAsc := ⟨fun _ _ _ h1 h2 => Nat.le_trans h1 h2⟩

/-- `MemoryStorage.getAppointments()`: all appointments sorted by
`scheduledAt` descending (`server/storage.ts` lines 352-354). -/
def getAppointments (appointments : List Appointment) : List Appointment :=
  List.insertionSort schedDesc appointments

/-- `MemoryStorage.getAppointmentsByDate(date)`: equality filter on the
derived `scheduledDate` string, then ascending by `scheduledAt`
(`server/storage.ts` lines 356-360). -/
def getAppointmentsByDate (appointments : List Appointment) (date : String) : List Appointment :=
  List.insertionSort schedAsc (appointments.filter (fun a => a.scheduledDate == date))

/-- `MemoryStorage.getAppointmentsByDoctor(doctorId)`
(`server/storage.ts` lines 362-366). -/
def getAppointmentsByDoctor (appointments : List Appointment) (doctorId : String) : List Appointment :=
  List.insertionSort schedAsc (appointments.filter (fun a => a.doctorId == doctorId))

/-- `MemoryStorage.getAuditLogs()`: all audit logs sorted by `createdAt`
descending (`server/storage.ts` lines 445-447). -/
def getAuditLogs (logs : List AuditLog) : List AuditLog :=
  List.insertionSort auditCreatedDesc logs

/-- `MemoryStorage.createAuditLog` applied to an audit-log map in insertion
order: generated id, stamped creation time, appended. -/
def createAuditLogRec (logs : List AuditLog) (counter now : Nat)
    (userId action entityType entityId : String) (changesError : Bool) :
    List AuditLog :=
  logs ++ [{ id := generateId counter, userId := userId, action := action,
             entityType := entityType, entityId := entityId,
             changesError := changesError, createdAt := now }]

/-! ### Hybrid Storage Facade (`src/unnamed/part_002` lines 1244-1316)

`HybridStorage` keeps four private fields; `memoryStorage` is non-null
exactly when `fallbackInitialized` is true (both are only written together
inside `initializeFallback`), so the nullness of `memoryStorage` is
represented by `fallbackInitialized`.  `memInitCount` counts executions of
`new MemoryStorage()` so "initialized exactly once" is statable.  Firestore
operations and the availability probe take their outcomes from oracle
arguments; the in-memory store cannot fail. -/

structure HState where
  useFirestore : Bool
  fallbackInitialized : Bool
  availabilityChecked : Bool
  memInitCount : Nat
deriving DecidableEq, Repr

/-- The state right after `new HybridStorage()` assigns its fields (the
constructor's call to `checkFirestoreAvailability` is asynchronous; every
operation awaits it via `executeWithFallback`, which is modelled by running
the check on first use). -/
def hInit : HState :=
  { useFirestore := true, fallbackInitialized := false,
    availabilityChecked := false, memInitCount := 0 }

/-- `HybridStorage.initializeFallback` (lines 1282-1289): allocates the
in-memory store only when not already initialized. -/
def initializeFallback (s : HState) : HState :=
  if !s.fallbackInitialized then
    { s with fallbackInitialized := true, memInitCount := s.memInitCount + 1 }
  else s

/-- `HybridStorage.checkFirestoreAvailability` (lines 1258-1280).
`probeOk` is the outcome of the sentinel read `db.collection('__test__')`.
Both catch branches (auth/metadata-plugin error signatures and any other
probe error) clear `useFirestore` and initialize the fallback; the
`finally` block records that the check ran. -/
def checkFirestoreAvailability (probeOk : Bool) (s : HState) : HState :=
  if s.availabilityChecked then s
  else
    let s1 :=
      if probeOk then { s with useFirestore := true }
      else initializeFallback { s with useFirestore := false }
    { s1 with availabilityChecked := true }

instance {ε α : Type} [DecidableEq ε] [DecidableEq α] : DecidableEq (Except ε α) := fun
  | .ok a, .ok b =>
    if h : a = b then isTrue (by rw [h]) else isFalse (fun hh => h (by injection hh))
  | .ok _, .error _ => isFalse (fun hh => Except.noConfusion hh)
  | .error _, .ok _ => isFalse (fun hh => Except.noConfusion hh)
  | .error a, .error b =>
    if h : a = b then isTrue (by rw [h]) else isFalse (fun hh => h (by injection hh))

/-- What one facade operation produced: the value the caller sees, how many
times the primary (Firestore) operation was invoked, whether the in-memory
store served the result, and the facade state afterwards. -/
structure OpOutcome where
  result : Except Unit Nat
  primaryCalls : Nat
  servedByFallback : Bool
  state : HState
deriving DecidableEq, Repr

/-- `HybridStorage.executeWithFallback` (lines 1291-1316).  `primary` is
the outcome the Firestore operation would produce if invoked; `memVal` is
the value the in-memory operation produces (it cannot fail).  On a primary
failure the facade clears `useFirestore`, initializes the fallback, falls
through to the memory operation and returns its result; the caught error is
not re-thrown and the primary call is not repeated. -/
def executeWithFallback (probeOk : Bool) (primary : Except Unit Nat) (memVal : Nat)
    (s : HState) : OpOutcome :=
  let s1 := if !s.availabilityChecked then checkFirestoreAvailability probeOk s else s
  if s1.useFirestore then
    match primary with
    | .ok v => { result := .ok v, primaryCalls := 1, servedByFallback := false, state := s1 }
    | .error _ =>
      let s2 := initializeFallback { s1 with useFirestore := false }
      -- line 1312: `if (!this.memoryStorage) await this.initializeFallback()` (a no-op here)
      let s3 := if !s2.fallbackInitialized then initializeFallback s2 else s2
      { result := .ok memVal, primaryCalls := 1, servedByFallback := true, state := s3 }
  else
    let s2 := if !s1.fallbackInitialized then initializeFallback s1 else s1
    { result := .ok memVal, primaryCalls := 0, servedByFallback := true, state := s2 }

/-- A sequence of facade operations: each entry carries the would-be
outcome of its Firestore call and the value its memory call produces. -/
def runOps (probeOk : Bool) (s : HState) : List (Except Unit Nat × Nat) → HState × List OpOutcome
  | [] => (s, [])
  | (p, m) :: rest =>
    let o := executeWithFallback probeOk p m s
    let r := runOps probeOk o.state rest
    (r.1, o :: r.2)

/-! ### Photo upload lifecycle: `uploadPatientPhoto` and the
    `activeUploads` guard (`src/unnamed/part_003` lines 33-274)

`activeUploads` is a module-level `Map<string, UploadState>` keyed by
patient id.  JS stores object references, so the in-place mutations of the
local `uploadState` (writing `tempPath`, `finalPath`, `retryCount`) are
visible through the map; the model re-`set`s the entry at each mutation
point.  The oracle list gives the outcome of each object-store upload
attempt (`uploadBytes` + `getDownloadURL`); deletions of partial objects
are best-effort and never throw (`deletePatientPhoto` swallows all errors),
so they do not appear in the oracle. -/

/-- The mutable `UploadState` tracked per patient id. -/
structure UpState where
  patientId : String
  tempPath : Option String
  finalPath : Option String
  retryCount : Nat
  maxRetries : Nat
deriving DecidableEq, Repr

/-- The `activeUploads` map, insertion-ordered. -/
abbrev ActiveMap := List (String × UpState)

/-- JS `Map.has`. -/
def mapHas (m : ActiveMap) (k : String) : Bool :=
  m.any (fun kv => kv.1 == k)

/-- JS `Map.set`: replaces in place when the key exists, appends otherwise. -/
def mapSet (m : ActiveMap) (k : String) (v : UpState) : ActiveMap :=
  if mapHas m k then m.map (fun kv => if kv.1 == k then (k, v) else kv)
  else m ++ [(k, v)]

/-- JS `Map.delete` (result discarded). -/
def mapDelete (m : ActiveMap) (k : String) : ActiveMap :=
  m.filter (fun kv => !(kv.1 == k))

/-- JS `Map.get`. -/
def mapGet (m : ActiveMap) (k : String) : Option UpState :=
  (m.find? (fun kv => kv.1 == k)).map (fun kv => kv.2)

/-- The organized storage path computed before the upload
(`` `${folder}/${year}/${month}/${patientId}/${patientId}_${timestamp}.${ext}` ``).
Its contents play no role in the verified claims; the date/timestamp parts
are abstracted into the `stamp` argument. -/
def organizedPath (pid stamp : String) : String :=
  "patient-photos/" ++ stamp ++ "/" ++ pid ++ "/" ++ pid ++ "_" ++ stamp ++ ".jpg"

/-- What a call to `uploadPatientPhoto` produced: the settled value of the
returned promise (`.ok path` on success), how many object-store upload
attempts were made, the backoff delays awaited (in ms, in order), and the
`activeUploads` map afterwards. -/
structure UploadOutcome where
  result : Except PhotoErrCode String
  storePuts : Nat
  delays : List Nat
  active : ActiveMap
deriving DecidableEq, Repr

/-- `uploadPatientPhoto(file, patientId)` with default options
(lines 95-214), as a function of the `activeUploads` map and the oracle of
object-store attempt outcomes.  The body follows the source line by line:

1. duplicate guard: reject with `DUPLICATE_UPLOAD` when the map has the key;
2. `validatePhoto`; a validation error propagates before any state change;
3. insert the fresh `UploadState` (`retryCount: 0, maxRetries: 3`), compute
   the organized path, record it as `tempPath`;
4. attempt the upload (consumes one oracle entry).  On success, set
   `finalPath`, best-effort notify the server (no modelled effect), delete
   the map entry and resolve with the path.  On failure, best-effort delete
   the partial object, and since `retryCount < maxRetries` bump
   `retryCount`, await `1000 * retryCount` ms and re-invoke
   `uploadPatientPhoto` recursively, returning whatever the recursive call
   settles to; only when `retryCount` were to reach `maxRetries` would the
   entry be deleted and `UPLOAD_FAILED` thrown.

`none` is returned only when the oracle is exhausted (the environment
under-specified). -/
def uploadPatientPhoto (oracle : List Bool) (active : ActiveMap)
    (file : Option UFile) (pid stamp : String) : Option UploadOutcome :=
  if mapHas active pid then
    some { result := .error .DUPLICATE_UPLOAD, storePuts := 0, delays := [], active := active }
  else
    match validatePhoto file with
    | .error e =>
      some { result := .error e, storePuts := 0, delays := [], active := active }
    | .ok _ =>
      let st0 : UpState :=
        { patientId := pid, tempPath := none, finalPath := none, retryCount := 0, maxRetries := 3 }
      let m1 := mapSet active pid st0
      let path := organizedPath pid stamp
      let st1 := { st0 with tempPath := some path }
      let m2 := mapSet m1 pid st1
      match oracle with
      | [] => none
      | attemptOk :: rest =>
        if attemptOk then
          let st2 := { st1 with finalPath := some path }
          let m3 := mapSet m2 pid st2
          some { result := .ok path, storePuts := 1, delays := [], active := mapDelete m3 pid }
        else
          -- catch block: best-effort `deletePatientPhoto(tempPath)` (no map effect)
          if st1.retryCount < st1.maxRetries then
            let st2 := { st1 with retryCount := st1.retryCount + 1 }
            let m3 := mapSet m2 pid st2
            match uploadPatientPhoto rest m3 file pid stamp with
            | none => none
            | some o =>
              some { result := o.result, storePuts := o.storePuts + 1,
                     delays := 1000 * st2.retryCount :: o.delays, active := o.active }
          else
            some { result := .error .UPLOAD_FAILED, storePuts := 1, delays := [],
                   active := mapDelete m2 pid }
termination_by oracle.length

/-- `cancelPatientPhotoUpload(patientId)` (lines 257-274): best-effort
delete of the partial object (no map effect), then removal of the guard
entry; a no-op when no upload is active. -/
def cancelPatientPhotoUpload (active : ActiveMap) (pid : String) : ActiveMap :=
  match mapGet active pid with
  | none => active
  | some _ => mapDelete active pid

/-! ### `POST /api/patients` route handler (`src/server/routes.ts` lines 625-775)

The handler runs against the process-wide storage singleton; the storage
state it touches (patients, photo-upload tracking records, audit logs, the
shared id counter) is gathered in `RouteStore`.  The photo-upload tracking
operations `getPhotoUploadsForPatient` and `updatePhotoUpload` are invoked
by the handler but their implementation file is not part of the sources;
they are modelled from the spec (see their doc comments).  Storage calls
inside the re-pathing `try` block are the ones whose exceptions the claim
is about; `RepathEnv` says which of them (if any) rejects. -/

/-- The status enumeration of a tracked photo upload. -/
inductive UploadStatus where
  | uploaded
  | confirmed
  | cleaned_up
  | failed
deriving DecidableEq, Repr

/-- A tracked `PhotoUpload` record, restricted to the fields the handler
reads or writes. -/
structure PhotoUpload where
  patientId : String
  tempPath : String
  finalPath : Option String
  originalName : String
  status : UploadStatus
  confirmedBy : Option String
deriving DecidableEq, Repr

/-- Modelled from the spec: the storage contract's photo-upload
"list-for-patient" operation (`storage.getPhotoUploadsForPatient`), whose
implementation file is not among the sources.  Per spec section 6 it lists
the tracked uploads recorded for the given (possibly temporary placeholder)
patient id. -/
def getPhotoUploadsForPatient (uploads : List PhotoUpload) (pid : String) : List PhotoUpload :=
  uploads.filter (fun u => u.patientId == pid)

/-- Modelled from the spec: the storage contract's photo-upload
"update-by-temp-path" operation (`storage.updatePhotoUpload`), whose
implementation file is not among the sources.  Per spec sections 4.5/6 it
updates the tracking record stored under the given temporary path with the
final path, the real patient id, status `confirmed` and the confirming
user. -/
def updatePhotoUpload (uploads : List PhotoUpload) (tempPath finalPath newPid confirmer : String) :
    List PhotoUpload :=
  uploads.map (fun u =>
    if u.tempPath == tempPath then
      { u with finalPath := some finalPath, patientId := newPid,
               status := .confirmed, confirmedBy := some confirmer }
    else u)

/-- The maximal leading run of decimal digits. -/
def digitsRun : List Char → List Char
  | [] => []
  | c :: cs => if c.isDigit then c :: digitsRun cs else []

/-- First match of the regular expression `temp-\d+` (leftmost position,
maximal digit run), as used by `profilePhotoUrl.match(/temp-\d+/)`. -/
def tempIdSearch : List Char → Option (List Char)
  | [] => none
  | c :: cs =>
    if ('t' :: 'e' :: 'm' :: 'p' :: '-' :: []).isPrefixOf (c :: cs) then
      let ds := digitsRun ((c :: cs).drop 5)
      if ds.isEmpty then tempIdSearch cs
      else some (('t' :: 'e' :: 'm' :: 'p' :: '-' :: []) ++ ds)
    else tempIdSearch cs

/-- `url.match(/temp-\d+/)`, returning the matched text. -/
def matchTempId (s : String) : Option String :=
  (tempIdSearch s.data).map (fun l => String.mk l)

/-- `originalName.split('.').pop()?.toLowerCase() || 'jpg'`. -/
def fileExt (name : String) : String :=
  let last := ((name.splitOn ".").getLast?).getD ""
  if strToLower last == "" then "jpg" else strToLower last

/-- First index at which `pat` occurs in `hay`. -/
def firstIndexOfList (hay pat : List Char) : Option Nat :=
  (List.range (hay.length + 1)).find? (fun i => pat.isPrefixOf (hay.drop i))

/-- Largest index `j ≥ lo` with `hay[j] = c`. -/
def lastIndexFrom (hay : List Char) (c : Char) (lo : Nat) : Option Nat :=
  (List.range hay.length).foldl
    (fun acc i => if lo ≤ i && hay.get? i == some c then some i else acc) none

/-- `url.replace(/patient-photos\/.*\//, replacement)`: the greedy `.*`
stretches the (single) replacement from the first occurrence of
`patient-photos/` to the last `/` of the string at or beyond its end; when
no such closing slash exists the pattern matches nowhere and the string is
returned unchanged. -/
def replaceGreedyPhotoPath (url replacement : String) : String :=
  match firstIndexOfList url.data ("patient-photos/".data) with
  | none => url
  | some i =>
    match lastIndexFrom url.data '/' (i + 15) with
    | none => url
    | some j => String.mk (url.data.take i ++ replacement.data ++ url.data.drop (j + 1))

/-- Length of a `temp-\d+_` match anchored at the head of the list,
when there is one. -/
def tempUscoreAt (l : List Char) : Option Nat :=
  if ('t' :: 'e' :: 'm' :: 'p' :: '-' :: []).isPrefixOf l then
    let ds := digitsRun (l.drop 5)
    if ds.isEmpty then none
    else if l.get? (5 + ds.length) == some '_' then some (5 + ds.length + 1)
    else none
  else none

/-- Leftmost match of `temp-\d+_` as (start index, match length). -/
def findTempUscore : List Char → Option (Nat × Nat)
  | [] => none
  | c :: cs =>
    match tempUscoreAt (c :: cs) with
    | some len => some (0, len)
    | none => (findTempUscore cs).map (fun p => (p.1 + 1, p.2))

/-- `url.replace(/temp-\d+_/, patientId + '_')`. -/
def replaceTempUscore (url pid : String) : String :=
  match findTempUscore url.data with
  | none => url
  | some st =>
    String.mk (url.data.take st.1 ++ (pid ++ "_").data ++ url.data.drop (st.1 + st.2))

/-- The storage state the `POST /api/patients` handler touches, with the
shared id counter and model clock of the memory store. -/
structure RouteStore where
  patients : List Patient
  uploads : List PhotoUpload
  audits : List AuditLog
  counter : Nat
  now : Nat
deriving DecidableEq, Repr

/-- `storage.createPatient` at the route's store. -/
def RouteStore.createPatient (s : RouteStore) (ins : InsertPatient) : Patient × RouteStore :=
  let p := createPatientRec ins (generateId s.counter) s.now
  (p, { s with patients := s.patients ++ [p], counter := s.counter + 1, now := s.now + 1 })

/-- `storage.updatePatient` at the route's store. -/
def RouteStore.updatePatient (s : RouteStore) (pid : String) (u : PatientUpdates) :
    Option Patient × RouteStore :=
  match s.patients.find? (fun p => p.id == pid) with
  | none => (none, s)
  | some p =>
    let p2 := applyPatientUpdate p u
    (some p2, { s with patients := s.patients.map (fun q => if q.id == pid then p2 else q) })

/-- `storage.searchPatients` at the route's store. -/
def RouteStore.searchPatients (s : RouteStore) (q : String) : List Patient :=
  s.patients.filter (patientMatches q)

/-- `storage.createAuditLog` at the route's store. -/
def RouteStore.createAuditLog (s : RouteStore)
    (userId action entityType entityId : String) (changesError : Bool) : RouteStore :=
  { s with
    audits := createAuditLogRec s.audits s.counter s.now userId action entityType entityId changesError
    counter := s.counter + 1
    now := s.now + 1 }

/-- Which storage calls inside the re-pathing `try` block reject, plus the
date parts the handler formats into the final path. -/
structure RepathEnv where
  yearStr : String
  monthStr : String
  throwsGetUploads : Bool
  throwsUpdUpload : Bool
  throwsUpdPatient : Bool
  throwsAudit : Bool
deriving DecidableEq, Repr

/-- The handler's `catch (repathError)` block (lines 744-759): audit-log the
failure (action `repath`, entity type `patient_photo`, an `error` marker in
the changes payload) and continue with whatever `finalPatient` already is —
patient creation is not rolled back. -/
def repathCatch (s : RouteStore) (uid entityId : String) (fp : Patient) : Patient × RouteStore :=
  (fp, s.createAuditLog uid "repath" "patient_photo" entityId true)

/-- The photo re-pathing `try` block (lines 680-759), entered when the
submitted `profilePhotoUrl` contains `temp-`.  Follows the source: extract
the temp id (silently skip when the regex does not match), list the tracked
uploads for it, find one with status `uploaded` (warn and skip when none —
note: no audit entry on this path), compute the final path, update the
tracking record, rewrite the photo URL, update the patient record
(falling back to the created record when the update returns `undefined`),
and audit-log the successful re-path.  A rejection at any storage call
diverts to `repathCatch` with the state mutated so far. -/
def repathBlock (s : RouteStore) (uid : String) (created : Patient) (url : String)
    (env : RepathEnv) : Patient × RouteStore :=
  match matchTempId url with
  | none => (created, s)
  | some tempId =>
    if env.throwsGetUploads then repathCatch s uid created.id created
    else
      let uploads := getPhotoUploadsForPatient s.uploads tempId
      match uploads.find? (fun u => u.status == UploadStatus.uploaded) with
      | none => (created, s)
      | some pu =>
        let ext := fileExt pu.originalName
        let fileName := created.id ++ "_" ++ toString s.now ++ "." ++ ext
        let finalPath :=
          "patient-photos/" ++ env.yearStr ++ "/" ++ env.monthStr ++ "/" ++ created.id ++ "/" ++ fileName
        if env.throwsUpdUpload then repathCatch s uid created.id created
        else
          let s1 := { s with uploads := updatePhotoUpload s.uploads pu.tempPath finalPath created.id uid }
          let updatedUrl :=
            replaceTempUscore
              (replaceGreedyPhotoPath url
                ("patient-photos/" ++ env.yearStr ++ "/" ++ env.monthStr ++ "/" ++ created.id ++ "/"))
              created.id
          if env.throwsUpdPatient then repathCatch s1 uid created.id created
          else
            let r := s1.updatePatient created.id { profilePhotoUrl := some updatedUrl }
            let finalPatient := r.1.getD created
            if env.throwsAudit then repathCatch r.2 uid created.id finalPatient
            else
              (finalPatient, r.2.createAuditLog uid "repath" "patient_photo" created.id false)

/-- The handler's HTTP outcome. -/
inductive RouteResp where
  | created (p : Patient)
  | badRequest
  | conflict
  | serverError
deriving DecidableEq, Repr

/-- Lines 674-775: create the patient, run the re-pathing block when the
submitted photo URL carries a `temp-` marker, audit-log the creation, and
respond `201` with `finalPatient`. -/
def postPatientsCreate (s : RouteStore) (uid : String) (pd : InsertPatient)
    (env : RepathEnv) : RouteResp × RouteStore :=
  let r := s.createPatient pd
  let created := r.1
  let url := pd.profilePhotoUrl.getD ""
  let r2 :=
    if jsTruthy pd.profilePhotoUrl && strIncludes url "temp-" then
      repathBlock r.2 uid created url env
    else (created, r.2)
  let s3 := r2.2.createAuditLog uid "create" "patient" created.id false
  (.created r2.1, s3)

/-- The `POST /api/patients` handler body (lines 628-775), after
authentication and schema validation middleware: the date-of-birth age
gate (`400`), the duplicate-phone and duplicate-email checks (`409`,
via `searchPatients` and an exact-field filter), then creation plus
re-pathing. -/
def postPatients (s : RouteStore) (uid : String) (todayYear : Int)
    (pd : InsertPatient) (env : RepathEnv) : RouteResp × RouteStore :=
  let ageBad :=
    match pd.dateOfBirthYear with
    | some y => decide (todayYear - y < 0) || decide (todayYear - y > 150)
    | none => false
  if ageBad then (.badRequest, s)
  else
    let existing := s.searchPatients pd.phone
    let phoneMatches := existing.filter (fun p => p.phone == pd.phone)
    if decide (existing.length > 0) && decide (phoneMatches.length > 0) then (.conflict, s)
    else if jsTruthy pd.email then
      let emailResults := s.searchPatients (pd.email.getD "")
      let emailMatches := emailResults.filter (fun p => p.email == pd.email)
      if decide (emailMatches.length > 0) then (.conflict, s)
      else postPatientsCreate s uid pd env
    else postPatientsCreate s uid pd env

/-! ### Facade lemmas and claims C1, C2 -/

theorem initializeFallback_useFirestore (s : HState) :
    (initializeFallback s).useFirestore = s.useFirestore := by
  unfold initializeFallback; split <;> rfl

theorem initializeFallback_checked (s : HState) :
    (initializeFallback s).availabilityChecked = s.availabilityChecked := by
  unfold initializeFallback; split <;> rfl

theorem initializeFallback_init (s : HState) :
    (initializeFallback s).fallbackInitialized = true := by
  unfold initializeFallback
  split <;> simp_all

theorem checkAvailability_checked (p : Bool) (s : HState)
    (h : s.availabilityChecked = true) : checkFirestoreAvailability p s = s := by
  unfold checkFirestoreAvailability
  simp [h]

theorem exec_state_checked (p : Bool) (pr : Except Unit Nat) (mv : Nat) (s : HState) :
    (executeWithFallback p pr mv s).state.availabilityChecked = true := by
  rcases s with ⟨u, f, c, m⟩
  cases u <;> cases f <;> cases c <;> cases p <;> cases pr <;>
    simp [executeWithFallback, checkFirestoreAvailability, initializeFallback]

theorem exec_on_fallback (p : Bool) (pr : Except Unit Nat) (mv : Nat) (s : HState)
    (h1 : s.availabilityChecked = true) (h2 : s.useFirestore = false) :
    (executeWithFallback p pr mv s).primaryCalls = 0 ∧
    (executeWithFallback p pr mv s).servedByFallback = true ∧
    (executeWithFallback p pr mv s).result = .ok mv ∧
    (executeWithFallback p pr mv s).state.availabilityChecked = true ∧
    (executeWithFallback p pr mv s).state.useFirestore = false := by
  rcases s with ⟨u, f, c, m⟩
  subst h1
  cases u with
  | true => cases h2
  | false =>
    cases f <;> cases p <;> cases pr <;>
      simp [executeWithFallback, checkFirestoreAvailability, initializeFallback]

theorem runOps_after_switch (p : Bool) (ops : List (Except Unit Nat × Nat)) (s : HState)
    (h1 : s.availabilityChecked = true) (h2 : s.useFirestore = false) :
    (∀ o ∈ (runOps p s ops).2, o.primaryCalls = 0 ∧ o.servedByFallback = true) ∧
    (runOps p s ops).1.availabilityChecked = true ∧
    (runOps p s ops).1.useFirestore = false := by
  induction ops generalizing s with
  | nil => simpa [runOps] using ⟨h1, h2⟩
  | cons op rest ih =>
    obtain ⟨hc, hf, _hr, hc', hf'⟩ := exec_on_fallback p op.1 op.2 s h1 h2
    have hrec := ih (executeWithFallback p op.1 op.2 s).state hc' hf'
    refine ⟨?_, ?_, ?_⟩
    · intro o ho
      simp only [runOps] at ho
      rcases List.mem_cons.mp ho with ho | ho
      · subst ho; exact ⟨hc, hf⟩
      · exact hrec.1 o ho
    · simpa [runOps] using hrec.2.1
    · simpa [runOps] using hrec.2.2

theorem runOps_final_checked (p : Bool) (ops : List (Except Unit Nat × Nat)) (s : HState) :
    (runOps p s ops).1.availabilityChecked = true ∨ (runOps p s ops).1 = s := by
  induction ops generalizing s with
  | nil => exact Or.inr rfl
  | cons op rest ih =>
    rcases ih (executeWithFallback p op.1 op.2 s).state with h | h
    · exact Or.inl (by simpa [runOps] using h)
    · exact Or.inl (by
        simp only [runOps]
        rw [h]
        exact exec_state_checked p op.1 op.2 s)

theorem runOps_append (p : Bool) (a b : List (Except Unit Nat × Nat)) (s : HState) :
    runOps p s (a ++ b) =
      ((runOps p (runOps p s a).1 b).1,
       (runOps p s a).2 ++ (runOps p (runOps p s a).1 b).2) := by
  induction a generalizing s with
  | nil => simp [runOps]
  | cons op rest ih => simp [runOps, ih]

theorem runOps_length (p : Bool) (ops : List (Except Unit Nat × Nat)) (s : HState) :
    (runOps p s ops).2.length = ops.length := by
  induction ops generalizing s with
  | nil => simp [runOps]
  | cons op rest ih => simp [runOps, ih]

/-- C1: once any primary-store operation or the initial availability probe
has failed and the facade has switched to the in-memory fallback
(`useFirestore = false`), every operation of the rest of the process's
lifetime is served by the in-memory store with zero primary-store calls:
both for the run continued from the switched state, and stated over the
single run on `ops1 ++ ops2`, where the outcomes after the prefix `ops1`
are exactly those of the continued run; moreover a failed initial probe
alone already forces every operation of the whole run onto the fallback. -/
theorem C1_fallback_permanent (probeOk : Bool) (ops1 ops2 : List (Except Unit Nat × Nat))
    (hswitched : (runOps probeOk hInit ops1).1.useFirestore = false) :
    (∀ o ∈ (runOps probeOk (runOps probeOk hInit ops1).1 ops2).2,
        o.primaryCalls = 0 ∧ o.servedByFallback = true) ∧
    ((runOps probeOk hInit (ops1 ++ ops2)).2.drop ops1.length
       = (runOps probeOk (runOps probeOk hInit ops1).1 ops2).2) ∧
    (∀ ops : List (Except Unit Nat × Nat), ∀ o ∈ (runOps false hInit ops).2,
        o.primaryCalls = 0 ∧ o.servedByFallback = true) := by
  have hchecked : (runOps probeOk hInit ops1).1.availabilityChecked = true := by
    rcases runOps_final_checked probeOk ops1 hInit with h | h
    · exact h
    · rw [h] at hswitched; simp [hInit] at hswitched
  refine ⟨(runOps_after_switch probeOk ops2 _ hchecked hswitched).1, ?_, ?_⟩
  · rw [runOps_append]
    simp [runOps_length]
  · intro ops o ho
    cases ops with
    | nil => simp [runOps] at ho
    | cons op rest =>
      simp only [runOps] at ho
      have hstep : executeWithFallback false op.1 op.2 hInit =
          { result := .ok op.2, primaryCalls := 0, servedByFallback := true,
            state := { useFirestore := false, fallbackInitialized := true,
                       availabilityChecked := true, memInitCount := 1 } } := by
        simp [executeWithFallback, checkFirestoreAvailability, initializeFallback, hInit]
      rcases List.mem_cons.mp ho with ho | ho
      · subst ho; rw [hstep]; exact ⟨rfl, rfl⟩
      · rw [hstep] at ho
        exact (runOps_after_switch false rest _ rfl rfl).1 o ho

/-- Witness for C1 at a concrete run: the probe succeeds, the first
operation's primary call fails (switching the facade), and both of the two
subsequent operations would have healthy primaries, yet are served by the
fallback with zero primary calls. -/
theorem C1_fallback_permanent_witness :
    ((runOps true hInit [(.error (), 5)]).1.useFirestore = false) ∧
    (∀ o ∈ (runOps true (runOps true hInit [(.error (), 5)]).1
              [(.ok 7, 9), (.ok 8, 11)]).2,
        o.primaryCalls = 0 ∧ o.servedByFallback = true) := by
  refine ⟨by decide, ?_⟩
  exact (C1_fallback_permanent true [(.error (), 5)] [(.ok 7, 9), (.ok 8, 11)] (by decide)).1

/-- The fallback store is allocated iff the facade has recorded it, and
then exactly once: the `new MemoryStorage()` count equals the
`fallbackInitialized` flag. -/
def memInv (s : HState) : Prop :=
  s.memInitCount = (if s.fallbackInitialized then 1 else 0)

theorem exec_memInv (p : Bool) (pr : Except Unit Nat) (mv : Nat) (s : HState)
    (h : memInv s) : memInv (executeWithFallback p pr mv s).state := by
  rcases s with ⟨u, f, c, m⟩
  unfold memInv at h ⊢
  cases u <;> cases f <;> cases c <;> cases p <;> cases pr <;>
    simp_all [executeWithFallback, checkFirestoreAvailability, initializeFallback]

theorem runOps_memInv (p : Bool) (ops : List (Except Unit Nat × Nat)) (s : HState)
    (h : memInv s) : memInv (runOps p s ops).1 := by
  induction ops generalizing s with
  | nil => simpa [runOps] using h
  | cons op rest ih =>
    simpa [runOps] using ih _ (exec_memInv p op.1 op.2 s h)

/-- C2: a facade operation issued while the primary is still in use whose
primary call fails is absorbed: the caller receives the fallback's result
(never the primary error), the primary is called exactly once (no retry
against it), the in-memory fallback serves the result, the facade is
switched permanently, the fallback ends up initialized — freshly allocated
on this operation only when it did not already exist — and over any whole
run from construction the in-memory store is allocated at most once. -/
theorem C2_primary_failure_absorbed (probeOk : Bool) (mv : Nat) (s : HState)
    (h1 : s.availabilityChecked = true) (h2 : s.useFirestore = true) :
    (executeWithFallback probeOk (.error ()) mv s).result = .ok mv ∧
    (executeWithFallback probeOk (.error ()) mv s).primaryCalls = 1 ∧
    (executeWithFallback probeOk (.error ()) mv s).servedByFallback = true ∧
    (executeWithFallback probeOk (.error ()) mv s).state.useFirestore = false ∧
    (executeWithFallback probeOk (.error ()) mv s).state.fallbackInitialized = true ∧
    (executeWithFallback probeOk (.error ()) mv s).state.memInitCount
      = (if s.fallbackInitialized then s.memInitCount else s.memInitCount + 1) ∧
    (∀ (p2 : Bool) (ops : List (Except Unit Nat × Nat)),
        (runOps p2 hInit ops).1.memInitCount ≤ 1) := by
  refine ⟨?_, ?_, ?_, ?_, ?_, ?_, ?_⟩ <;>
    first
  | · rcases s with ⟨u, f, c, m⟩
      subst h1 h2
      cases f <;> cases probeOk <;>
        simp [executeWithFallback, checkFirestoreAvailability, initializeFallback]
  | · intro p2 ops
      have h := runOps_memInv p2 ops hInit (by simp [memInv, hInit])
      unfold memInv at h
      rw [h]
      split <;> simp

/-- Witness for C2: from the post-probe primary state, a failing primary
operation yields the memory value 42, one primary call, a switched and
initialized facade, and a single allocation over a concrete run. -/
theorem C2_primary_failure_absorbed_witness :
    (executeWithFallback true (.error ())
        42 { useFirestore := true, fallbackInitialized := false,
             availabilityChecked := true, memInitCount := 0 }).result = .ok 42 ∧
    (executeWithFallback true (.error ())
        42 { useFirestore := true, fallbackInitialized := false,
             availabilityChecked := true, memInitCount := 0 }).primaryCalls = 1 := by
  have h := C2_primary_failure_absorbed true 42
      { useFirestore := true, fallbackInitialized := false,
        availabilityChecked := true, memInitCount := 0 } rfl rfl
  exact ⟨h.1, h.2.1⟩

/-! ### Claim C5: `validatePhoto` acceptance characterization -/

theorem dangerous_any_iff (nm : String) :
    dangerousExtensions.any (fun e => strEndsWith nm e) = true ↔
      ∃ e ∈ dangerousExtensions, e.data <:+ nm.data := by
  simp [strEndsWith, List.any_eq_true, List.isSuffixOf_iff_suffix]

/-- C5: `validatePhoto` accepts a file exactly when it is present, its
declared MIME type is on the allow-list, its size is at most
5,242,880 bytes, its lowercased name ends with no dangerous extension, and
its first bytes carry a JPEG (`FF D8 FF`) or PNG (`89 50 4E 47`) magic
number — the sniff being independent of the declared type; each rejection
carries the code of the violated rule, with the exact-boundary behavior:
at most 5,242,880 bytes never trips `FILE_TOO_LARGE`, one byte over the
ceiling always does. -/
theorem C5_validatePhoto_rules (file : Option UFile) :
    (validatePhoto file = .ok () ↔
      ∃ f, file = some f ∧
        f.mime ∈ allowedTypes ∧
        f.size ≤ 5242880 ∧
        (∀ e ∈ dangerousExtensions, ¬ e.data <:+ (strToLower f.name).data) ∧
        (isJPEGsig (f.bytes.take 12) = true ∨ isPNGsig (f.bytes.take 12) = true)) ∧
    validatePhoto none = .error .INVALID_FILE ∧
    (∀ f, file = some f →
      (f.mime ∉ allowedTypes → validatePhoto file = .error .INVALID_TYPE) ∧
      (f.mime ∈ allowedTypes → 5242880 < f.size →
          validatePhoto file = .error .FILE_TOO_LARGE) ∧
      (f.size ≤ 5242880 → validatePhoto file ≠ .error .FILE_TOO_LARGE) ∧
      (f.mime ∈ allowedTypes → f.size ≤ 5242880 →
          (∃ e ∈ dangerousExtensions, e.data <:+ (strToLower f.name).data) →
          validatePhoto file = .error .INVALID_TYPE) ∧
      (f.mime ∈ allowedTypes → f.size ≤ 5242880 →
          (∀ e ∈ dangerousExtensions, ¬ e.data <:+ (strToLower f.name).data) →
          isJPEGsig (f.bytes.take 12) = false → isPNGsig (f.bytes.take 12) = false →
          validatePhoto file = .error .INVALID_FILE)) := by
  refine ⟨?_, rfl, ?_⟩
  · cases file with
    | none => simp [validatePhoto]
    | some f =>
      constructor
      · intro h
        simp only [validatePhoto] at h
        split_ifs at h with h1 h2 h3 h4; try simp at h
        refine ⟨f, rfl, ?_, ?_, ?_, ?_⟩
        · simpa using h1
        · simp only [maxSizeBytes, decide_eq_true_eq, Bool.and_eq_true, not_and] at h2
          omega
        · intro e he hsuf
          exact h3 ((dangerous_any_iff (strToLower f.name)).mpr ⟨e, he, hsuf⟩)
        · have hor : (isJPEGsig (f.bytes.take 12) || isPNGsig (f.bytes.take 12)) = true := by
            revert h4
            cases isJPEGsig (f.bytes.take 12) <;> cases isPNGsig (f.bytes.take 12) <;> simp
          exact Bool.or_eq_true_iff.mp hor
      · rintro ⟨f2, hf2, hmime, hsize, hext, hsig⟩
        injection hf2 with hf2
        subst hf2
        have h1 : ¬((!allowedTypes.contains f.mime) = true) := by simpa using hmime
        have h2 : ¬((decide (0 < maxSizeBytes) && decide (f.size > maxSizeBytes)) = true) := by
          simp only [maxSizeBytes]
          simp
          omega
        have h3 : ¬(dangerousExtensions.any (fun e => strEndsWith (strToLower f.name) e) = true) := by
          intro hc
          obtain ⟨e, he, hsuf⟩ := (dangerous_any_iff (strToLower f.name)).mp hc
          exact hext e he hsuf
        have h4 : ¬((!(isJPEGsig (f.bytes.take 12) || isPNGsig (f.bytes.take 12))) = true) := by
          rcases hsig with h | h <;> simp [h]
        simp only [validatePhoto]
        rw [if_neg h1, if_neg h2, if_neg h3, if_neg h4]
  · rintro f rfl
    refine ⟨?_, ?_, ?_, ?_, ?_⟩
    · intro hmime
      have h1 : (!allowedTypes.contains f.mime) = true := by simpa using hmime
      simp only [validatePhoto]
      rw [if_pos h1]
    · intro hmime hsize
      have h1 : ¬((!allowedTypes.contains f.mime) = true) := by simpa using hmime
      have h2 : (decide (0 < maxSizeBytes) && decide (f.size > maxSizeBytes)) = true := by
        simp only [maxSizeBytes]
        simp
        omega
      simp only [validatePhoto]
      rw [if_neg h1, if_pos h2]
    · intro hsize
      have h2 : ¬((decide (0 < maxSizeBytes) && decide (f.size > maxSizeBytes)) = true) := by
        simp only [maxSizeBytes]
        simp
        omega
      simp only [validatePhoto]
      split_ifs <;> simp_all
    · intro hmime hsize hext
      have h1 : ¬((!allowedTypes.contains f.mime) = true) := by simpa using hmime
      have h2 : ¬((decide (0 < maxSizeBytes) && decide (f.size > maxSizeBytes)) = true) := by
        simp only [maxSizeBytes]
        simp
        omega
      have h3 : dangerousExtensions.any (fun e => strEndsWith (strToLower f.name) e) = true :=
        (dangerous_any_iff (strToLower f.name)).mpr hext
      simp only [validatePhoto]
      rw [if_neg h1, if_neg h2, if_pos h3]
    · intro hmime hsize hext hj hp
      have h1 : ¬((!allowedTypes.contains f.mime) = true) := by simpa using hmime
      have h2 : ¬((decide (0 < maxSizeBytes) && decide (f.size > maxSizeBytes)) = true) := by
        simp only [maxSizeBytes]
        simp
        omega
      have h3 : ¬(dangerousExtensions.any (fun e => strEndsWith (strToLower f.name) e) = true) := by
        intro hc
        obtain ⟨e, he, hsuf⟩ := (dangerous_any_iff (strToLower f.name)).mp hc
        exact hext e he hsuf
      have h4 : (!(isJPEGsig (f.bytes.take 12) || isPNGsig (f.bytes.take 12))) = true := by
        simp [hj, hp]
      simp only [validatePhoto]
      rw [if_neg h1, if_neg h2, if_neg h3, if_pos h4]

/-- Witness for C5 at concrete files: a 5,242,880-byte PNG passes, the same
file one byte larger is rejected with `FILE_TOO_LARGE`, and a spoofed
`.png` name with executable magic bytes is rejected as `INVALID_FILE`. -/
theorem C5_validatePhoto_rules_witness :
    validatePhoto (some { name := "a.png", mime := "image/png", size := 5242880,
                          bytes := [0x89, 0x50, 0x4E, 0x47] }) = .ok () ∧
    validatePhoto (some { name := "a.png", mime := "image/png", size := 5242881,
                          bytes := [0x89, 0x50, 0x4E, 0x47] }) = .error .FILE_TOO_LARGE ∧
    validatePhoto (some { name := "a.png", mime := "image/png", size := 4,
                          bytes := [0x4D, 0x5A, 0, 0] }) = .error .INVALID_FILE := by
  refine ⟨?_, ?_, ?_⟩
  · exact (C5_validatePhoto_rules _).1.mpr
      ⟨_, rfl, by decide, by decide, by decide, by decide⟩
  · exact (((C5_validatePhoto_rules _).2.2 _ rfl).2.1 (by decide) (by decide))
  · exact (((C5_validatePhoto_rules _).2.2 _ rfl).2.2.2.2 (by decide) (by decide)
      (by decide) (by decide) (by decide))

/-! ### Claims C10, C3, C4: the upload guard and the retry path -/

theorem mapHas_false_keys {m : ActiveMap} {k : String} (h : mapHas m k = false) :
    ∀ kv ∈ m, (kv.1 == k) = false := by
  intro kv hkv
  have := List.any_eq_false.mp h kv hkv
  simpa using this

theorem mapSet_fresh {m : ActiveMap} {k : String} (v : UpState) (h : mapHas m k = false) :
    mapSet m k v = m ++ [(k, v)] := by
  simp [mapSet, h]

theorem mapHas_append_self (m : ActiveMap) (k : String) (v : UpState) :
    mapHas (m ++ [(k, v)]) k = true := by
  simp [mapHas]

theorem map_keyupdate_id {m : ActiveMap} {k : String} (w : UpState)
    (h : mapHas m k = false) :
    m.map (fun kv => if kv.1 == k then (k, w) else kv) = m := by
  induction m with
  | nil => rfl
  | cons a t ih =>
    have ha := mapHas_false_keys h a (List.mem_cons_self a t)
    have ht : mapHas t k = false := by
      simp only [mapHas, List.any_cons] at h
      simp only [mapHas]
      cases hc : t.any (fun kv => kv.1 == k) <;> simp_all
    simp only [List.map_cons, ha, Bool.false_eq_true, if_false]
    rw [ih ht]

theorem mapSet_replace_last {m : ActiveMap} {k : String} (v w : UpState)
    (h : mapHas m k = false) :
    mapSet (m ++ [(k, v)]) k w = m ++ [(k, w)] := by
  simp only [mapSet, mapHas_append_self, if_pos, List.map_append]
  rw [map_keyupdate_id w h]
  simp

theorem mapDelete_last {m : ActiveMap} {k : String} (w : UpState)
    (h : mapHas m k = false) :
    mapDelete (m ++ [(k, w)]) k = m := by
  simp only [mapDelete, List.filter_append]
  rw [List.filter_eq_self.mpr (by
    intro kv hkv
    simp [mapHas_false_keys h kv hkv])]
  simp

/-- C10: a call for a patient with no upload in flight whose file fails
validation propagates the validation error with zero object-store calls
and leaves the `activeUploads` guard map unchanged (the guard entry is
inserted only after validation passes), so an immediately subsequent call
for the same patient id is not pre-rejected as a duplicate: with a valid
file and a succeeding attempt it completes and returns the upload path. -/
theorem C10_validation_failure_leaves_guard (oracle : List Bool) (active : ActiveMap)
    (file : Option UFile) (pid stamp : String) (e : PhotoErrCode)
    (hfree : mapHas active pid = false)
    (hval : validatePhoto file = .error e) :
    uploadPatientPhoto oracle active file pid stamp
      = some { result := .error e, storePuts := 0, delays := [], active := active } ∧
    (∀ (f2 : UFile) (stamp2 : String), validatePhoto (some f2) = .ok () →
        uploadPatientPhoto [true] active (some f2) pid stamp2
          = some { result := .ok (organizedPath pid stamp2), storePuts := 1, delays := [],
                   active := active }) := by
  constructor
  · rw [uploadPatientPhoto]
    simp [hfree, hval]
  · intro f2 stamp2 hok
    rw [uploadPatientPhoto]
    simp only [hfree, Bool.false_eq_true, if_false, hok]
    rw [mapSet_fresh _ hfree, mapSet_replace_last _ _ hfree, mapSet_replace_last _ _ hfree,
        mapDelete_last _ hfree]
    simp
/-- A well-formed small PNG file, used as the concrete upload input. -/
def validPng : UFile :=
  { name := "a.png", mime := "image/png", size := 9, bytes := [0x89, 0x50, 0x4E, 0x47] }

/-- A PNG whose size exceeds the 5 MB ceiling. -/
def oversizedPng : UFile :=
  { name := "big.png", mime := "image/png", size := 6000000, bytes := [0x89, 0x50, 0x4E, 0x47] }

/-- Witness for C10: the oversized PNG for patient `p1` is rejected with
`FILE_TOO_LARGE` leaving the guard empty, and the follow-up upload of a
small valid PNG for the same patient succeeds. -/
theorem C10_validation_failure_leaves_guard_witness :
    uploadPatientPhoto [true] [] (some oversizedPng) "p1" "S"
      = some { result := .error .FILE_TOO_LARGE, storePuts := 0, delays := [], active := [] } ∧
    uploadPatientPhoto [true] [] (some validPng) "p1" "S2"
      = some { result := .ok (organizedPath "p1" "S2"), storePuts := 1, delays := [],
               active := [] } := by
  have h := C10_validation_failure_leaves_guard [true] [] (some oversizedPng) "p1" "S"
    .FILE_TOO_LARGE (by decide) (by simp +decide [validatePhoto, oversizedPng])
  exact ⟨h.1, h.2 validPng "S2" (by simp +decide [validatePhoto, validPng])⟩

/-- The `activeUploads` entry left behind by a failed upload for `p1`
(tempPath recorded, `retryCount` bumped to 1). -/
def leakedGuard : ActiveMap :=
  [("p1", { patientId := "p1", tempPath := some (organizedPath "p1" "S"),
            finalPath := none, retryCount := 1, maxRetries := 3 })]

/-- C3 (code bug, evaluated at the failing input): with no upload in
flight, a valid file, and a first object-store attempt that fails while
every later attempt would succeed, `uploadPatientPhoto` never performs the
retry upload: the recursive retry call is rejected by the still-present
per-patient guard entry, so the overall call rejects with
`DUPLICATE_UPLOAD` — not `UPLOAD_FAILED` — after exactly one object-store
attempt and a single 1000 ms backoff, and the guard entry is left in the
map instead of being removed. -/
theorem C3_retry_rejected_by_own_guard :
    uploadPatientPhoto [false, true, true, true] [] (some validPng) "p1" "S"
      = some { result := .error .DUPLICATE_UPLOAD, storePuts := 1, delays := [1000],
               active := leakedGuard } ∧
    mapHas leakedGuard "p1" = true := by
  constructor
  · simp +decide [uploadPatientPhoto, mapHas, mapSet, mapDelete, validatePhoto,
      organizedPath, maxSizeBytes, allowedTypes, dangerousExtensions, strEndsWith,
      strToLower, isJPEGsig, isPNGsig, validPng, leakedGuard]
  · decide

/-- C4 (code bug, evaluated at the failing input): the guard does reject a
call made while an upload is genuinely in flight (zero store calls), and a
successful upload and an explicit cancellation both clear the guard — but
a call whose upload fails resolves (with `DUPLICATE_UPLOAD` from its own
retry) while leaving the guard entry set, so the next call for the same
patient id, made after the first has resolved, is still rejected as a
duplicate. -/
theorem C4_resolved_failure_still_blocks :
    uploadPatientPhoto [false, true] [] (some validPng) "p1" "S"
      = some { result := .error .DUPLICATE_UPLOAD, storePuts := 1, delays := [1000],
               active := leakedGuard } ∧
    uploadPatientPhoto [true] leakedGuard (some validPng) "p1" "S3"
      = some { result := .error .DUPLICATE_UPLOAD, storePuts := 0, delays := [],
               active := leakedGuard } ∧
    uploadPatientPhoto [true] [] (some validPng) "p1" "S4"
      = some { result := .ok (organizedPath "p1" "S4"), storePuts := 1, delays := [],
               active := [] } ∧
    cancelPatientPhotoUpload leakedGuard "p1" = [] := by
  refine ⟨?_, ?_, ?_, ?_⟩
  · simp +decide [uploadPatientPhoto, mapHas, mapSet, mapDelete, validatePhoto,
      organizedPath, maxSizeBytes, allowedTypes, dangerousExtensions, strEndsWith,
      strToLower, isJPEGsig, isPNGsig, validPng, leakedGuard]
  · rw [uploadPatientPhoto]
    simp +decide [mapHas, leakedGuard]
  · simp +decide [uploadPatientPhoto, mapHas, mapSet, mapDelete, validatePhoto,
      organizedPath, maxSizeBytes, allowedTypes, dangerousExtensions, strEndsWith,
      strToLower, isJPEGsig, isPNGsig, validPng]
  · simp +decide [cancelPatientPhotoUpload, mapGet, mapDelete, leakedGuard]

/-! ### Claim C6: the full-name denormalization invariant -/

/-- A stored patient record used as the concrete update target. -/
def johnDoe : Patient :=
  { id := "id-1", firstName := "John", lastName := "Doe", fullName := "John Doe",
    fullNameLower := "john doe", phone := "+1234567890", email := none,
    emailLower := none, profilePhotoUrl := none, createdAt := 0 }

/-- A one-patient store holding `johnDoe`. -/
def c6Store : PatientStore := { patients := [johnDoe], counter := 2, now := 1 }

/-- Counterexample to C6 as stated: the partial change
`{ firstName: "" }` includes `firstName`, yet after the update the stored
patient has `firstName = ""` while `fullName` is still `"John Doe"`
(the truthiness test `updates.firstName || updates.lastName` skips the
recomputation for the empty string), so
`fullName ≠ "{firstName} {lastName}"`. -/
theorem C6_empty_firstName_counterexample :
    ((c6Store.updatePatient "id-1" { firstName := some "" }).1.map
        (fun p => decide (p.fullName = p.firstName ++ " " ++ p.lastName))) = some false ∧
    ((c6Store.updatePatient "id-1" { firstName := some "" }).1.map Patient.firstName)
      = some "" ∧
    ((c6Store.updatePatient "id-1" { firstName := some "" }).1.map Patient.fullName)
      = some "John Doe" := by
  refine ⟨?_, ?_, ?_⟩ <;>
    simp +decide [PatientStore.updatePatient, applyPatientUpdate, c6Store, johnDoe,
      jsTruthy, jsOr, strToLower]
/-- C6 (amended): for updates whose provided `firstName`/`lastName` values
are non-empty (JS-truthy) strings — with at least one of them provided —
the patient returned by `updatePatient` and stored in the map satisfies
`fullName = "{firstName} {lastName}"` over the post-update names and
`fullNameLower = fullName.toLowerCase()`; `createPatient` establishes the
same invariant unconditionally. -/
theorem C6_denormalization_amended (s : PatientStore) (pid : String) (u : PatientUpdates)
    (p' : Patient) (s' : PatientStore)
    (hfn : u.firstName = none ∨ jsTruthy u.firstName = true)
    (hln : u.lastName = none ∨ jsTruthy u.lastName = true)
    (hchange : u.firstName ≠ none ∨ u.lastName ≠ none)
    (hres : s.updatePatient pid u = (some p', s')) :
    p'.fullName = p'.firstName ++ " " ++ p'.lastName ∧
    p'.fullNameLower = strToLower p'.fullName ∧
    p' ∈ s'.patients ∧
    (∀ ins : InsertPatient,
        (s.createPatient ins).1.fullName
          = (s.createPatient ins).1.firstName ++ " " ++ (s.createPatient ins).1.lastName ∧
        (s.createPatient ins).1.fullNameLower
          = strToLower (s.createPatient ins).1.fullName) := by
  have hcreate : ∀ ins : InsertPatient,
      (s.createPatient ins).1.fullName
        = (s.createPatient ins).1.firstName ++ " " ++ (s.createPatient ins).1.lastName ∧
      (s.createPatient ins).1.fullNameLower
        = strToLower (s.createPatient ins).1.fullName := by
    intro ins
    simp [PatientStore.createPatient, createPatientRec]
  cases hfind : s.patients.find? (fun p => p.id == pid) with
  | none =>
    simp only [PatientStore.updatePatient, hfind] at hres
    exact absurd (congrArg Prod.fst hres) (by simp)
  | some p =>
    simp only [PatientStore.updatePatient, hfind] at hres
    have h1 : some (applyPatientUpdate p u) = some p' := congrArg Prod.fst hres
    have hp' : p' = applyPatientUpdate p u := by
      injection h1 with h
      exact h.symm
    have hs' : s' =
        { patients :=
            s.patients.map (fun q => if q.id == pid then applyPatientUpdate p u else q),
          counter := s.counter, now := s.now } :=
      (congrArg Prod.snd hres).symm
    have hpmem : p ∈ s.patients := List.mem_of_find?_eq_some hfind
    have hpid : (p.id == pid) = true := by
      have := List.find?_some hfind
      simpa using this
    have hmem : p' ∈ s'.patients := by
      rw [hs', hp']
      refine List.mem_map.mpr ⟨p, hpmem, ?_⟩
      simp [hpid]
    have hnames : p'.fullName = p'.firstName ++ " " ++ p'.lastName ∧
        p'.fullNameLower = strToLower p'.fullName := by
      rw [hp']
      rcases hf : u.firstName with _ | a
      · rcases hl : u.lastName with _ | b
        · rw [hf, hl] at hchange
          rcases hchange with h | h <;> exact absurd rfl h
        · rcases hln with h | h
          · rw [hl] at h; cases h
          · rw [hl] at h
            simp only [jsTruthy, Bool.not_eq_eq_eq_not, Bool.not_true] at h
            simp [applyPatientUpdate, jsTruthy, jsOr, hf, hl, h]
      · rcases hfn with h | h
        · rw [hf] at h; cases h
        · rw [hf] at h
          simp only [jsTruthy, Bool.not_eq_eq_eq_not, Bool.not_true] at h
          rcases hl : u.lastName with _ | b
          · simp [applyPatientUpdate, jsTruthy, jsOr, hf, hl, h]
          · rcases hln with h2 | h2
            · rw [hl] at h2; cases h2
            · rw [hl] at h2
              simp only [jsTruthy, Bool.not_eq_eq_eq_not, Bool.not_true] at h2
              simp [applyPatientUpdate, jsTruthy, jsOr, hf, hl, h, h2]
    exact ⟨hnames.1, hnames.2, hmem, hcreate⟩

/-- Witness for C6 (amended) at a concrete update: renaming `johnDoe`'s
first name to `"Jane"` restores the invariant, giving
`fullName = "Jane Doe"` and the matching lowercased copy. -/
theorem C6_denormalization_amended_witness :
    (applyPatientUpdate johnDoe { firstName := some "Jane" }).fullName
      = (applyPatientUpdate johnDoe { firstName := some "Jane" }).firstName ++ " "
        ++ (applyPatientUpdate johnDoe { firstName := some "Jane" }).lastName ∧
    (applyPatientUpdate johnDoe { firstName := some "Jane" }).fullNameLower
      = strToLower (applyPatientUpdate johnDoe { firstName := some "Jane" }).fullName := by
  have hfst : (c6Store.updatePatient "id-1" { firstName := some "Jane" }).1
      = some (applyPatientUpdate johnDoe { firstName := some "Jane" }) := by decide
  have hres : c6Store.updatePatient "id-1" { firstName := some "Jane" }
      = (some (applyPatientUpdate johnDoe { firstName := some "Jane" }),
         (c6Store.updatePatient "id-1" { firstName := some "Jane" }).2) := by
    have heta := (Prod.mk.eta
      (p := c6Store.updatePatient "id-1" { firstName := some "Jane" })).symm
    rw [hfst] at heta
    exact heta
  have h := C6_denormalization_amended c6Store "id-1" { firstName := some "Jane" }
    (applyPatientUpdate johnDoe { firstName := some "Jane" })
    (c6Store.updatePatient "id-1" { firstName := some "Jane" }).2
    (Or.inr (by decide)) (Or.inl rfl) (Or.inl (by decide)) hres
  exact ⟨h.1, h.2.1⟩

/-! ### Claim C7: `searchPatients` -/

/-- The match predicate that claim C7 describes, written from the spec's
words (for comparison with the code's `patientMatches`): case-insensitive
prefix match of the query against the full name, or substring match
against the phone, or case-insensitive match against the email only when
the query contains `@`. -/
def specSearchMatches (q : String) (p : Patient) : Bool :=
  (strToLower q).data.isPrefixOf p.fullNameLower.data
  || strIncludes p.phone q
  || (strIncludes q "@" &&
      (match p.emailLower with
       | some e => strIncludes e (strToLower q)
       | none => false))

/-- A stored patient whose full name contains, but does not start with,
the query used in the counterexample. -/
def janeSmith : Patient :=
  { id := "id-7", firstName := "Jane", lastName := "Smith", fullName := "Jane Smith",
    fullNameLower := "jane smith", phone := "+15550000000", email := none,
    emailLower := none, profilePhotoUrl := none, createdAt := 0 }

/-- A one-patient store holding `janeSmith`. -/
def c7Store : PatientStore := { patients := [janeSmith], counter := 2, now := 1 }

/-- Counterexample to C7 as stated: for the query `"smith"` the code
returns `janeSmith` (its match is a substring test, `includes`, and the
email test is applied without any `@` precondition), while the claim's
criteria — prefix match on the full name, phone substring, email only for
`@`-queries — match nothing in the store; so `searchPatients` does not
return exactly the claim-matching patients. -/
theorem C7_substring_vs_prefix_counterexample :
    c7Store.searchPatients "smith" = [janeSmith] ∧
    c7Store.patients.filter (specSearchMatches "smith") = [] := by
  constructor <;> decide

/-- C7 (amended): `searchPatients` returns exactly the stored patients
whose lowercased full name contains the lowercased query as a substring,
or whose phone contains the query, or whose lowercased email is non-empty
and contains the lowercased query (no `@` precondition); each matching
patient appears exactly once when the stored ids are distinct. -/
theorem C7_search_amended (s : PatientStore) (q : String)
    (hnd : (s.patients.map Patient.id).Nodup) :
    ((s.searchPatients q).map Patient.id).Nodup ∧
    ∀ p, p ∈ s.searchPatients q ↔
      (p ∈ s.patients ∧
        ((strToLower q).data <:+: p.fullNameLower.data ∨
         q.data <:+: p.phone.data ∨
         (∃ e, p.emailLower = some e ∧ e ≠ "" ∧ (strToLower q).data <:+: e.data))) := by
  constructor
  · exact hnd.sublist ((List.filter_sublist s.patients).map Patient.id)
  · intro p
    unfold PatientStore.searchPatients
    rw [List.mem_filter]
    constructor
    · rintro ⟨hmem, hmch⟩
      refine ⟨hmem, ?_⟩
      unfold patientMatches at hmch
      cases he : p.emailLower with
      | none =>
        rw [he] at hmch
        simp only [Bool.or_eq_true] at hmch
        rcases hmch with (h | h) | h
        · exact Or.inl (strIncludes_iff.mp h)
        · exact Or.inr (Or.inl (strIncludes_iff.mp h))
        · cases h
      | some e =>
        rw [he] at hmch
        simp only [Bool.or_eq_true, Bool.and_eq_true] at hmch
        rcases hmch with (h | h) | ⟨hne, h⟩
        · exact Or.inl (strIncludes_iff.mp h)
        · exact Or.inr (Or.inl (strIncludes_iff.mp h))
        · refine Or.inr (Or.inr ⟨e, rfl, ?_, strIncludes_iff.mp h⟩)
          simpa using hne
    · rintro ⟨hmem, hcrit⟩
      refine ⟨hmem, ?_⟩
      unfold patientMatches
      rcases hcrit with h | h | ⟨e, he, hne, h⟩
      · simp [strIncludes_iff.mpr h]
      · simp [strIncludes_iff.mpr h]
      · rw [he]
        simp [strIncludes_iff.mpr h, hne]

/-- Witness for C7 (amended): in the one-patient store, the query
`"smith"` returns exactly `janeSmith`, whose lowered full name contains
`"smith"`. -/
theorem C7_search_amended_witness :
    ((c7Store.searchPatients "smith").map Patient.id).Nodup ∧
    (janeSmith ∈ c7Store.searchPatients "smith" ↔
      (janeSmith ∈ c7Store.patients ∧
        ((strToLower "smith").data <:+: janeSmith.fullNameLower.data ∨
         "smith".data <:+: janeSmith.phone.data ∨
         (∃ e, janeSmith.emailLower = some e ∧ e ≠ ""
            ∧ (strToLower "smith").data <:+: e.data)))) := by
  have h := C7_search_amended c7Store "smith" (by decide)
  exact ⟨h.1, h.2 janeSmith⟩

/-! ### Claim C8: list-operation ordering -/

/-- Two appointments whose creation order (`A` then `B`) disagrees with
their scheduled order (`B` is earlier in the day). -/
def c8Appointments : List Appointment :=
  [{ id := "A", doctorId := "d1", scheduledAt := 10, scheduledDate := "2025-01-02",
     createdAt := 0 },
   { id := "B", doctorId := "d1", scheduledAt := 5, scheduledDate := "2025-01-02",
     createdAt := 1 }]

/-- Counterexample to C8 as stated: `getAppointments` is not among the
claim's exceptions, so the claim requires creation-time-descending order
(`[B, A]`), but the code sorts the unscoped appointment list by scheduled
time descending and returns `[A, B]`. -/
theorem C8_getAppointments_counterexample :
    (getAppointments c8Appointments).map Appointment.id = ["A", "B"] ∧
    ¬ List.Pairwise (fun a b => b.createdAt ≤ a.createdAt)
        (getAppointments c8Appointments) := by
  constructor <;> decide

/-- Three audit entries inserted A, then B, then C, through
`createAuditLog` with the advancing clock. -/
def threeAuditLogs : List AuditLog :=
  createAuditLogRec
    (createAuditLogRec
      (createAuditLogRec [] 1 0 "u" "create" "patient" "A" false)
      2 1 "u" "create" "patient" "B" false)
    3 2 "u" "create" "patient" "C" false

/-- C8 (amended): `getAuditLogs` returns a permutation of the stored
entries sorted by creation time descending — so inserting A then B then C
retrieves [C, B, A] — and the date-scoped and doctor-scoped appointment
queries return their filtered entries in ascending scheduled-time order;
but the unscoped `getAppointments` orders by scheduled time descending,
not by creation time. -/
theorem C8_ordering_amended (appts : List Appointment) (logs : List AuditLog)
    (d doc : String) :
    List.Sorted auditCreatedDesc (getAuditLogs logs) ∧
    (getAuditLogs logs).Perm logs ∧
    (getAuditLogs threeAuditLogs).map AuditLog.entityId = ["C", "B", "A"] ∧
    List.Sorted schedAsc (getAppointmentsByDate appts d) ∧
    (getAppointmentsByDate appts d).Perm
      (appts.filter (fun x => x.scheduledDate == d)) ∧
    List.Sorted schedAsc (getAppointmentsByDoctor appts doc) ∧
    (getAppointmentsByDoctor appts doc).Perm
      (appts.filter (fun x => x.doctorId == doc)) ∧
    List.Sorted schedDesc (getAppointments appts) ∧
    (getAppointments appts).Perm appts := by
  refine ⟨?_, ?_, ?_, ?_, ?_, ?_, ?_, ?_, ?_⟩
  · exact List.sorted_insertionSort auditCreatedDesc logs
  · exact List.perm_insertionSort auditCreatedDesc logs
  · decide
  · exact List.sorted_insertionSort schedAsc _
  · exact List.perm_insertionSort schedAsc _
  · exact List.sorted_insertionSort schedAsc _
  · exact List.perm_insertionSort schedAsc _
  · exact List.sorted_insertionSort schedDesc _
  · exact List.perm_insertionSort schedDesc _

/-! ### Claim C9: patient creation with photo re-pathing -/

/-- A creation request whose photo URL references the placeholder
`temp-123`. -/
def c9Insert : InsertPatient :=
  { firstName := "Ann", lastName := "Lee", phone := "+15550001111",
    profilePhotoUrl := some "patient-photos/2025/01/temp-123/temp-123_99.jpg" }

/-- A re-pathing environment in which no storage call rejects. -/
def c9EnvOk : RepathEnv :=
  { yearStr := "2025", monthStr := "02", throwsGetUploads := false,
    throwsUpdUpload := false, throwsUpdPatient := false, throwsAudit := false }

/-- An empty storage state. -/
def c9EmptyStore : RouteStore :=
  { patients := [], uploads := [], audits := [], counter := 1, now := 0 }

/-- Counterexample to C9 as stated: with no tracked upload for `temp-123`
(no matching pending upload), the patient is created and returned — but the
handler only logs a console warning on this path and writes no audit entry
at all for the re-pathing failure, so the "recorded in a separate audit
log entry" part of the claim is false (the only audit entry is the
patient-creation one). -/
theorem C9_no_pending_upload_counterexample :
    (postPatients c9EmptyStore "u1" 2025 c9Insert c9EnvOk).1
      = .created (createPatientRec c9Insert "id-1" 0) ∧
    ((postPatients c9EmptyStore "u1" 2025 c9Insert c9EnvOk).2.audits.filter
        (fun a => a.action == "repath")) = [] ∧
    ((postPatients c9EmptyStore "u1" 2025 c9Insert c9EnvOk).2.audits.map
        (fun a => (a.action, a.changesError))) = [("create", false)] := by
  refine ⟨?_, ?_, ?_⟩ <;> decide

theorem includes_nonempty {url needle : String} (hne : needle.data ≠ [])
    (h : strIncludes url needle = true) : (url == "") = false := by
  rcases strIncludes_iff.mp h with ⟨a, b, hab⟩
  cases hu : url.data with
  | nil =>
    rw [hu] at hab
    rcases List.append_eq_nil.mp hab with ⟨h1, -⟩
    rcases List.append_eq_nil.mp h1 with ⟨-, h2⟩
    exact absurd h2 hne
  | cons c cs =>
    have : url ≠ "" := by
      intro hc
      rw [hc] at hu
      cases hu
    simpa using this

/-- Under passing gates, the handler reduces to the creation phase. -/
theorem postPatients_gates (s : RouteStore) (uid : String) (todayYear : Int)
    (pd : InsertPatient) (env : RepathEnv)
    (hage : (match pd.dateOfBirthYear with
             | some y => decide (todayYear - y < 0) || decide (todayYear - y > 150)
             | none => false) = false)
    (hphone : (s.searchPatients pd.phone).filter (fun p => p.phone == pd.phone) = [])
    (hemail : jsTruthy pd.email = false ∨
        (s.searchPatients (pd.email.getD "")).filter (fun p => p.email == pd.email) = []) :
    postPatients s uid todayYear pd env = postPatientsCreate s uid pd env := by
  unfold postPatients
  rw [hage]
  simp only [Bool.false_eq_true, if_false, hphone]
  have h0 : (decide ((s.searchPatients pd.phone).length > 0)
      && decide (([] : List Patient).length > 0)) = false := by simp
  rw [h0]
  simp only [Bool.false_eq_true, if_false]
  rcases hemail with h | h
  · rw [h]
    simp
  · rcases he : jsTruthy pd.email <;> simp [h]

theorem createPatientRec_id (ins : InsertPatient) (id : String) (ts : Nat) :
    (createPatientRec ins id ts).id = id := rfl

/-- C9 (amended): for a creation request that passes the age and duplicate
gates and whose photo URL carries a `temp-` placeholder, the patient record
is created, stored and returned with `201` both when no matching pending
upload (status `uploaded`) exists and when any of the re-pathing storage
calls rejects — the `getPhotoUploadsForPatient` listing, the
`updatePhotoUpload` record update, the `updatePatient` rewrite of the
photo URL, or the success-path `createAuditLog` — creation is never rolled
back.  Every thrown re-pathing step is recorded in exactly one separate
audit entry (action `repath`, error marker, followed by the `create`
entry), but the no-pending-upload case only logs a console warning: no
audit entry records that failure, the sole appended entry being the
`create` one. -/
theorem C9_repath_failures_amended (s : RouteStore) (uid : String) (todayYear : Int)
    (pd : InsertPatient) (env : RepathEnv) (url tid : String)
    (hage : (match pd.dateOfBirthYear with
             | some y => decide (todayYear - y < 0) || decide (todayYear - y > 150)
             | none => false) = false)
    (hphone : (s.searchPatients pd.phone).filter (fun p => p.phone == pd.phone) = [])
    (hemail : jsTruthy pd.email = false ∨
        (s.searchPatients (pd.email.getD "")).filter (fun p => p.email == pd.email) = [])
    (hurl : pd.profilePhotoUrl = some url)
    (hmarker : strIncludes url "temp-" = true)
    (hmatch : matchTempId url = some tid) :
    (env.throwsGetUploads = false →
      (getPhotoUploadsForPatient s.uploads tid).find?
          (fun u => u.status == UploadStatus.uploaded) = none →
      postPatients s uid todayYear pd env
        = (.created (createPatientRec pd (generateId s.counter) s.now),
           RouteStore.createAuditLog
             { patients := s.patients ++ [createPatientRec pd (generateId s.counter) s.now],
               uploads := s.uploads, audits := s.audits,
               counter := s.counter + 1, now := s.now + 1 }
             uid "create" "patient" (generateId s.counter) false) ∧
      ((postPatients s uid todayYear pd env).2.audits.map
          (fun a => (a.action, a.changesError)))
        = s.audits.map (fun a => (a.action, a.changesError)) ++ [("create", false)] ∧
      createPatientRec pd (generateId s.counter) s.now
        ∈ (postPatients s uid todayYear pd env).2.patients) ∧
    (env.throwsGetUploads = true →
      postPatients s uid todayYear pd env
        = (.created (createPatientRec pd (generateId s.counter) s.now),
           RouteStore.createAuditLog
             (RouteStore.createAuditLog
               { patients := s.patients ++ [createPatientRec pd (generateId s.counter) s.now],
                 uploads := s.uploads, audits := s.audits,
                 counter := s.counter + 1, now := s.now + 1 }
               uid "repath" "patient_photo" (generateId s.counter) true)
             uid "create" "patient" (generateId s.counter) false) ∧
      ((postPatients s uid todayYear pd env).2.audits.map
          (fun a => (a.action, a.changesError)))
        = s.audits.map (fun a => (a.action, a.changesError))
            ++ [("repath", true), ("create", false)] ∧
      createPatientRec pd (generateId s.counter) s.now
        ∈ (postPatients s uid todayYear pd env).2.patients) ∧
    (∀ pu : PhotoUpload, env.throwsGetUploads = false →
      (getPhotoUploadsForPatient s.uploads tid).find?
          (fun u => u.status == UploadStatus.uploaded) = some pu →
      env.throwsUpdUpload = true →
      (∃ p, (postPatients s uid todayYear pd env).1 = .created p ∧
         p.id = generateId s.counter ∧
         p ∈ (postPatients s uid todayYear pd env).2.patients) ∧
      ((postPatients s uid todayYear pd env).2.audits.map
          (fun a => (a.action, a.changesError)))
        = s.audits.map (fun a => (a.action, a.changesError))
            ++ [("repath", true), ("create", false)]) ∧
    (∀ pu : PhotoUpload, env.throwsGetUploads = false →
      (getPhotoUploadsForPatient s.uploads tid).find?
          (fun u => u.status == UploadStatus.uploaded) = some pu →
      env.throwsUpdUpload = false → env.throwsUpdPatient = true →
      (∃ p, (postPatients s uid todayYear pd env).1 = .created p ∧
         p.id = generateId s.counter ∧
         p ∈ (postPatients s uid todayYear pd env).2.patients) ∧
      ((postPatients s uid todayYear pd env).2.audits.map
          (fun a => (a.action, a.changesError)))
        = s.audits.map (fun a => (a.action, a.changesError))
            ++ [("repath", true), ("create", false)]) ∧
    (∀ pu : PhotoUpload, env.throwsGetUploads = false →
      (getPhotoUploadsForPatient s.uploads tid).find?
          (fun u => u.status == UploadStatus.uploaded) = some pu →
      env.throwsUpdUpload = false → env.throwsUpdPatient = false →
      env.throwsAudit = true →
      (∃ p, (postPatients s uid todayYear pd env).1 = .created p ∧
         p.id = generateId s.counter ∧
         p ∈ (postPatients s uid todayYear pd env).2.patients) ∧
      ((postPatients s uid todayYear pd env).2.audits.map
          (fun a => (a.action, a.changesError)))
        = s.audits.map (fun a => (a.action, a.changesError))
            ++ [("repath", true), ("create", false)]) := by
  have hgates := postPatients_gates s uid todayYear pd env hage hphone hemail
  have hn : (url == "") = false := includes_nonempty (by decide) hmarker
  refine ⟨?_, ?_, ?_, ?_, ?_⟩
  · intro hthrow hpend
    have heq : postPatients s uid todayYear pd env
        = (.created (createPatientRec pd (generateId s.counter) s.now),
           RouteStore.createAuditLog
             { patients := s.patients ++ [createPatientRec pd (generateId s.counter) s.now],
               uploads := s.uploads, audits := s.audits,
               counter := s.counter + 1, now := s.now + 1 }
             uid "create" "patient" (generateId s.counter) false) := by
      rw [hgates]
      unfold postPatientsCreate
      simp only [RouteStore.createPatient, hurl, Option.getD_some, jsTruthy, hn,
        Bool.not_false, Bool.true_and, hmarker, if_true, repathBlock, hmatch, hthrow,
        Bool.false_eq_true, if_false, hpend, createPatientRec_id]
    refine ⟨heq, ?_, ?_⟩ <;> rw [heq] <;>
      simp [RouteStore.createAuditLog, createAuditLogRec]
  · intro hthrow
    have heq : postPatients s uid todayYear pd env
        = (.created (createPatientRec pd (generateId s.counter) s.now),
           RouteStore.createAuditLog
             (RouteStore.createAuditLog
               { patients := s.patients ++ [createPatientRec pd (generateId s.counter) s.now],
                 uploads := s.uploads, audits := s.audits,
                 counter := s.counter + 1, now := s.now + 1 }
               uid "repath" "patient_photo" (generateId s.counter) true)
             uid "create" "patient" (generateId s.counter) false) := by
      rw [hgates]
      unfold postPatientsCreate
      simp only [RouteStore.createPatient, hurl, Option.getD_some, jsTruthy, hn,
        Bool.not_false, Bool.true_and, hmarker, if_true, repathBlock, hmatch, hthrow,
        repathCatch, createPatientRec_id]
    refine ⟨heq, ?_, ?_⟩ <;> rw [heq] <;>
      simp [RouteStore.createAuditLog, createAuditLogRec]
  · intro pu h1 hfind h2
    rw [hgates]
    unfold postPatientsCreate
    simp only [RouteStore.createPatient, hurl, Option.getD_some, jsTruthy, hn,
      Bool.not_false, Bool.true_and, hmarker, if_true, repathBlock, hmatch, h1,
      Bool.false_eq_true, if_false, hfind, h2, repathCatch, createPatientRec_id]
    constructor
    · refine ⟨createPatientRec pd (generateId s.counter) s.now, rfl, rfl, ?_⟩
      simp [RouteStore.createAuditLog]
    · simp [RouteStore.createAuditLog, createAuditLogRec]
  · intro pu h1 hfind h2 h3
    rw [hgates]
    unfold postPatientsCreate
    simp only [RouteStore.createPatient, hurl, Option.getD_some, jsTruthy, hn,
      Bool.not_false, Bool.true_and, hmarker, if_true, repathBlock, hmatch, h1, h2,
      Bool.false_eq_true, if_false, hfind, h3, repathCatch, createPatientRec_id]
    constructor
    · refine ⟨createPatientRec pd (generateId s.counter) s.now, rfl, rfl, ?_⟩
      simp [RouteStore.createAuditLog]
    · simp [RouteStore.createAuditLog, createAuditLogRec]
  · intro pu h1 hfind h2 h3 h4
    rw [hgates]
    unfold postPatientsCreate
    simp only [RouteStore.createPatient, hurl, Option.getD_some, jsTruthy, hn,
      Bool.not_false, Bool.true_and, hmarker, if_true, repathBlock, hmatch, h1, h2, h3,
      Bool.false_eq_true, if_false, hfind, h4, repathCatch, createPatientRec_id,
      RouteStore.updatePatient]
    rcases hfq : (s.patients
        ++ [createPatientRec pd (generateId s.counter) s.now]).find?
        (fun p => p.id == generateId s.counter) with _ | q
    · exfalso
      have hnone := List.find?_eq_none.mp hfq
        (createPatientRec pd (generateId s.counter) s.now)
        (List.mem_append_right _ (List.mem_cons_self _ _))
      simp [createPatientRec_id] at hnone
    · simp only [hfq, Option.getD_some]
      have hqid : q.id = generateId s.counter := by
        have := List.find?_some hfq
        exact eq_of_beq (by simpa using this)
      constructor
      · refine ⟨_, rfl, ?_, ?_⟩
        · show (applyPatientUpdate q _).id = generateId s.counter
          rw [show ∀ u, (applyPatientUpdate q u).id = q.id from fun _ => rfl, hqid]
        · refine List.mem_map.mpr
            ⟨createPatientRec pd (generateId s.counter) s.now,
             List.mem_append_right _ (List.mem_cons_self _ _), ?_⟩
          simp [createPatientRec_id]
      · simp [RouteStore.createAuditLog, createAuditLogRec]

/-- A tracked upload pending (status `uploaded`) under the placeholder id
`temp-123`. -/
def c9PendingUpload : PhotoUpload :=
  { patientId := "temp-123", tempPath := "patient-photos/2025/01/temp-123/temp-123_99.jpg",
    finalPath := none, originalName := "photo.png", status := .uploaded, confirmedBy := none }

/-- A store holding only the pending tracked upload for `temp-123`. -/
def c9StoreWithUpload : RouteStore :=
  { patients := [], uploads := [c9PendingUpload], audits := [], counter := 1, now := 0 }

/-- Witness for C9 (amended): the no-pending-upload run appends only the
`create` audit entry, while runs in which any of the four re-pathing
storage calls rejects — listing the tracked uploads, updating the tracking
record, updating the patient, or the success-path audit write — each
append the error `repath` entry followed by the `create` entry. -/
theorem C9_repath_failures_amended_witness :
    ((postPatients c9EmptyStore "u1" 2025 c9Insert c9EnvOk).2.audits.map
        (fun a => (a.action, a.changesError))) = [("create", false)] ∧
    ((postPatients c9EmptyStore "u1" 2025 c9Insert
        { c9EnvOk with throwsGetUploads := true }).2.audits.map
        (fun a => (a.action, a.changesError))) = [("repath", true), ("create", false)] ∧
    ((postPatients c9StoreWithUpload "u1" 2025 c9Insert
        { c9EnvOk with throwsUpdUpload := true }).2.audits.map
        (fun a => (a.action, a.changesError))) = [("repath", true), ("create", false)] ∧
    ((postPatients c9StoreWithUpload "u1" 2025 c9Insert
        { c9EnvOk with throwsUpdPatient := true }).2.audits.map
        (fun a => (a.action, a.changesError))) = [("repath", true), ("create", false)] ∧
    ((postPatients c9StoreWithUpload "u1" 2025 c9Insert
        { c9EnvOk with throwsAudit := true }).2.audits.map
        (fun a => (a.action, a.changesError))) = [("repath", true), ("create", false)] := by
  have h := C9_repath_failures_amended c9EmptyStore "u1" 2025 c9Insert c9EnvOk
    "patient-photos/2025/01/temp-123/temp-123_99.jpg" "temp-123"
    (by decide) (by decide) (Or.inl (by decide)) (by decide) (by decide) (by decide)
  have h2 := C9_repath_failures_amended c9EmptyStore "u1" 2025 c9Insert
    { c9EnvOk with throwsGetUploads := true }
    "patient-photos/2025/01/temp-123/temp-123_99.jpg" "temp-123"
    (by decide) (by decide) (Or.inl (by decide)) (by decide) (by decide) (by decide)
  have h3 := C9_repath_failures_amended c9StoreWithUpload "u1" 2025 c9Insert
    { c9EnvOk with throwsUpdUpload := true }
    "patient-photos/2025/01/temp-123/temp-123_99.jpg" "temp-123"
    (by decide) (by decide) (Or.inl (by decide)) (by decide) (by decide) (by decide)
  have h4 := C9_repath_failures_amended c9StoreWithUpload "u1" 2025 c9Insert
    { c9EnvOk with throwsUpdPatient := true }
    "patient-photos/2025/01/temp-123/temp-123_99.jpg" "temp-123"
    (by decide) (by decide) (Or.inl (by decide)) (by decide) (by decide) (by decide)
  have h5 := C9_repath_failures_amended c9StoreWithUpload "u1" 2025 c9Insert
    { c9EnvOk with throwsAudit := true }
    "patient-photos/2025/01/temp-123/temp-123_99.jpg" "temp-123"
    (by decide) (by decide) (Or.inl (by decide)) (by decide) (by decide) (by decide)
  refine ⟨?_, ?_, ?_, ?_, ?_⟩
  · have hc := (h.1 (by decide) (by decide)).2.1
    simpa [c9EmptyStore] using hc
  · have hc := (h2.2.1 (by decide)).2.1
    simpa [c9EmptyStore] using hc
  · have hc := (h3.2.2.1 c9PendingUpload (by decide) (by decide) (by decide)).2
    simpa [c9StoreWithUpload] using hc
  · have hc := (h4.2.2.2.1 c9PendingUpload (by decide) (by decide) (by decide) (by decide)).2
    simpa [c9StoreWithUpload] using hc
  · have hc := (h5.2.2.2.2 c9PendingUpload (by decide) (by decide) (by decide) (by decide)
      (by decide)).2
    simpa [c9StoreWithUpload] using hc
